import Mathlib

/-!
Verification of the cache index base layer (`index_base.py`).

The source defines an abstract base class `IndexBase` with concrete default
methods `has`, `known`, `add`, `get_index_dir`, `set_index_dir` and
`__init__`, built on three abstract backend operations `load`, `save` and
`_initialize_index`, plus a module-level helper `current_time()` returning
`datetime.datetime.now()` and a class constant
`TIME_FORMAT = "%Y-%m-%d:%H:%M:%S"`.

The embedding below is a shallow one:

* A timestamp is modelled as the fields of a Python `datetime` value down to
  microseconds (`datetime.datetime.now()` has microsecond resolution).
* Each default method body is translated into a small syntactic program
  (`Prog`) over the backend operations it may perform, so that statements
  about which backend operations a method performs (its trace) and about
  error propagation are faithful to the method body.
* `runProg` interprets such a program against an arbitrary backend
  (`Backend`), which may fail with an error of an arbitrary type, and
  records the trace of attempted operations.  Interpretation stops at the
  first failing operation and returns that error unchanged, mirroring
  Python exception propagation.
* `listBackend` is the canonical well-behaved backend whose storage state is
  exactly the list of entries (`load` returns the state, `save` replaces
  it); the algebraic claims about `add`/`has`/`known` round trips are proved
  against it.
-/

/-- A Python `datetime.datetime` value, to microsecond resolution, as
returned by `datetime.datetime.now()`. -/
structure Timestamp where
  year : Nat
  month : Nat
  day : Nat
  hour : Nat
  minute : Nat
  second : Nat
  microsecond : Nat
deriving DecidableEq

/-- `CacheEntry = namedtuple("CacheEntry", ["identifier", "timestamp"])`. -/
structure CacheEntry where
  identifier : String
  timestamp : Timestamp
deriving DecidableEq

/-- The backend operations a default method can attempt, with their
arguments: the abstract methods `load`, `save(index)` and
`_initialize_index` (the latter recording the `index_dir` in effect), and
the read of the clock by `current_time()`. -/
inductive Op where
  | load : Op
  | save (index : List CacheEntry) : Op
  | init_index (dir : Option String) : Op
  | time : Op
deriving DecidableEq

/-- An abstract storage backend: implementations of the abstract methods
`load`, `save` and `_initialize_index` over a storage state `σ`, each
allowed to fail with an error of type `ε` (a Python exception).  `load` is
a read of storage; `save` and `_initialize_index` may replace the storage
state. -/
structure Backend (σ ε : Type) where
  load : Option String → σ → Except ε (List CacheEntry)
  save : Option String → List CacheEntry → σ → Except ε σ
  init_index : Option String → σ → Except ε σ

/-- Syntax of a default method body: the sequence of backend operations it
performs, with the pure computation in between. -/
inductive Prog (α : Type) where
  | pure (a : α) : Prog α
  | loadOp (k : List CacheEntry → Prog α) : Prog α
  | saveOp (index : List CacheEntry) (k : Prog α) : Prog α
  | timeOp (k : Timestamp → Prog α) : Prog α

/-- Run a method body against a backend `B`, with the registry's current
`index_dir` equal to `dir` and an ambient clock (the `n`-th call to
`current_time()` reads `clock n`).  Returns the result (or the first
error, unchanged) together with the trace of attempted operations; nothing
is attempted after a failing operation. -/
def runProg {σ ε α : Type} (B : Backend σ ε) (dir : Option String)
    (clock : Nat → Timestamp) : Prog α → σ → Nat → Except ε (α × σ) × List Op
  | Prog.pure a, s, _ => (Except.ok (a, s), [])
  | Prog.loadOp k, s, n =>
    match B.load dir s with
    | Except.error e => (Except.error e, [Op.load])
    | Except.ok index =>
      let r := runProg B dir clock (k index) s n
      (r.1, Op.load :: r.2)
  | Prog.saveOp index k, s, n =>
    match B.save dir index s with
    | Except.error e => (Except.error e, [Op.save index])
    | Except.ok s2 =>
      let r := runProg B dir clock k s2 n
      (r.1, Op.save index :: r.2)
  | Prog.timeOp k, s, n =>
    let r := runProg B dir clock (k (clock n)) s (n + 1)
    (r.1, Op.time :: r.2)

/-- `TIME_FORMAT = "%Y-%m-%d:%H:%M:%S"`. -/
def IndexBase.TIME_FORMAT : String := "%Y-%m-%d:%H:%M:%S"

/-- `has`: `index = self.load()`; return
`any(entry.identifier == identifier for entry in index)`. -/
def IndexBase.has (identifier : String) : Prog Bool :=
  Prog.loadOp fun index =>
    Prog.pure (index.any fun entry => entry.identifier == identifier)

/-- `known`: return `{entry.identifier for entry in self.load()}`. -/
def IndexBase.known : Prog (Finset String) :=
  Prog.loadOp fun index =>
    Prog.pure (index.map CacheEntry.identifier).toFinset

/-- `add`: `index = self.load()`;
`entry = CacheEntry(identifier, current_time())`; `index.append(entry)`;
`self.save(index)`. -/
def IndexBase.add (identifier : String) : Prog Unit :=
  Prog.loadOp fun index =>
    Prog.timeOp fun now =>
      Prog.saveOp (index ++ [CacheEntry.mk identifier now]) (Prog.pure ())

/-- The mutable fields of an `IndexBase` object: `self.index_dir` together
with the backend's storage state. -/
structure RegistryState (σ : Type) where
  index_dir : Option String
  storage : σ
deriving DecidableEq

/-- `get_index_dir`: return `self.index_dir`. -/
def IndexBase.get_index_dir {σ : Type} (st : RegistryState σ) : Option String :=
  st.index_dir

/-- `set_index_dir(index_dir)`: `self.index_dir = index_dir` and then
`self._initialize_index()`.  The field assignment happens before the call,
so `index_dir` is updated even when `_initialize_index` raises; the error
(if any) propagates unchanged.  Returns the updated object state, the
outcome, and the trace of attempted backend operations. -/
def IndexBase.set_index_dir {σ ε : Type} (B : Backend σ ε)
    (st : RegistryState σ) (d : Option String) :
    RegistryState σ × Except ε Unit × List Op :=
  match B.init_index d st.storage with
  | Except.error e =>
    (RegistryState.mk d st.storage, Except.error e, [Op.init_index d])
  | Except.ok s2 =>
    (RegistryState.mk d s2, Except.ok (), [Op.init_index d])

/-- `__init__(self, index_dir=None)`: `self.set_index_dir(index_dir)`.
The fresh object has no `index_dir` attribute yet, modelled as `none`
before `set_index_dir` runs; `s` is the backend's initial storage state. -/
def IndexBase.mkRegistry {σ ε : Type} (B : Backend σ ε) (s : σ)
    (index_dir : Option String) : RegistryState σ × Except ε Unit × List Op :=
  IndexBase.set_index_dir B (RegistryState.mk none s) index_dir

/-- `__init__(self)` with the default argument: `index_dir=None`. -/
def IndexBase.mkRegistryDefault {σ ε : Type} (B : Backend σ ε) (s : σ) :
    RegistryState σ × Except ε Unit × List Op :=
  IndexBase.mkRegistry B s none

/-- Run a method body at registry level: `has`/`known`/`add` never assign
`self.index_dir`, so the resulting object keeps its `index_dir` and takes
the storage state produced by the backend operations. -/
def IndexBase.runMethod {σ ε α : Type} (B : Backend σ ε)
    (clock : Nat → Timestamp) (st : RegistryState σ) (p : Prog α) :
    Except ε (α × RegistryState σ) × List Op :=
  match runProg B st.index_dir clock p st.storage 0 with
  | (Except.error e, tr) => (Except.error e, tr)
  | (Except.ok (a, s2), tr) =>
    (Except.ok (a, RegistryState.mk st.index_dir s2), tr)

/-- The canonical well-behaved backend: storage is the list of entries
itself; `load` returns it, `save` replaces it, `_initialize_index` leaves
it unchanged; no operation fails. -/
def listBackend : Backend (List CacheEntry) Empty where
  load := fun _ s => Except.ok s
  save := fun _ index _ => Except.ok index
  init_index := fun _ s => Except.ok s

/-- A constant clock: every `current_time()` call returns `t`. -/
def constClock (t : Timestamp) : Nat → Timestamp := fun _ => t

/-- A throwaway timestamp for runs where the method never reads the
clock. -/
def zeroTime : Timestamp := Timestamp.mk 0 0 0 0 0 0 0

/-- The storage state after `add identifier` runs on `listBackend` from
state `s`, with `current_time()` returning `now`. -/
def IndexBase.addState (now : Timestamp) (s : List CacheEntry)
    (identifier : String) : List CacheEntry :=
  match (runProg listBackend none (constClock now)
      (IndexBase.add identifier) s 0).1 with
  | Except.ok (_, s2) => s2
  | Except.error e => e.elim

/-- The boolean returned by `has identifier` on `listBackend` in state
`s` (`has` never reads the clock). -/
def IndexBase.hasBool (s : List CacheEntry) (identifier : String) : Bool :=
  match (runProg listBackend none (constClock zeroTime)
      (IndexBase.has identifier) s 0).1 with
  | Except.ok (b, _) => b
  | Except.error e => e.elim

/-- The set returned by `known()` on `listBackend` in state `s`. -/
def IndexBase.knownSet (s : List CacheEntry) : Finset String :=
  match (runProg listBackend none (constClock zeroTime)
      IndexBase.known s 0).1 with
  | Except.ok (k, _) => k
  | Except.error e => e.elim

/-- The storage state after a sequence of `add` calls on `listBackend`,
each call given as the identifier passed to `add` paired with the value
`current_time()` returns during that call. -/
def IndexBase.addAll (s : List CacheEntry) :
    List (String × Timestamp) → List CacheEntry
  | [] => s
  | c :: cs => IndexBase.addAll (IndexBase.addState c.2 s c.1) cs

/-- Left-pad a decimal rendering to two digits (`%m`, `%d`, `%H`, `%M`,
`%S`). -/
def pad2 (n : Nat) : String :=
  if n < 10 then "0" ++ toString n else toString n

/-- Left-pad a decimal rendering to four digits (`%Y`). -/
def pad4 (n : Nat) : String :=
  if n < 10 then "000" ++ toString n
  else if n < 100 then "00" ++ toString n
  else if n < 1000 then "0" ++ toString n
  else toString n

/-- `t.strftime(TIME_FORMAT)` for `TIME_FORMAT = "%Y-%m-%d:%H:%M:%S"`:
the Python `strftime` directives `%Y` (zero-padded 4-digit year), `%m`,
`%d`, `%H`, `%M`, `%S` (zero-padded 2-digit fields) with the literal
separators of the format string; no directive consults the timezone or the
microsecond field. -/
def strftimeTimeFormat (t : Timestamp) : String :=
  pad4 t.year ++ "-" ++ pad2 t.month ++ "-" ++ pad2 t.day ++ ":" ++
    pad2 t.hour ++ ":" ++ pad2 t.minute ++ ":" ++ pad2 t.second

/-- A backend whose `load` always raises; `save` and `_initialize_index`
succeed.  Used to observe error propagation out of `has`/`known`/`add`. -/
def failLoadBackend : Backend Unit String where
  load := fun _ _ => Except.error "load-error"
  save := fun _ _ s => Except.ok s
  init_index := fun _ s => Except.ok s

/-- A backend whose `save` always raises; `load` returns the stored list
and `_initialize_index` succeeds. -/
def failSaveBackend : Backend (List CacheEntry) String where
  load := fun _ s => Except.ok s
  save := fun _ _ _ => Except.error "save-error"
  init_index := fun _ s => Except.ok s

/-- A backend whose `_initialize_index` always raises. -/
def failInitBackend : Backend Unit String where
  load := fun _ _ => Except.ok []
  save := fun _ _ s => Except.ok s
  init_index := fun _ _ => Except.error "init-error"

/-- A concrete clock reading with a nonzero sub-second part, as
`datetime.datetime.now()` routinely returns. -/
def sampleTime : Timestamp := Timestamp.mk 2026 1 2 3 4 5 123456

/-- C1: for every identifier `x` and every index state, `add x` loads the
full index, appends exactly one new entry `(x, current_time())` at the end
of the loaded sequence (all prior entries and their order preserved), and
persists the result via `save`; it performs no duplicate check, so calling
`add "a"` twice yields two entries for `"a"` in `load()`'s result. -/
theorem spec_add_appends_and_saves :
    (∀ (σ ε : Type) (B : Backend σ ε) (dir : Option String)
        (clock : Nat → Timestamp) (s : σ) (index : List CacheEntry)
        (x : String),
      B.load dir s = Except.ok index →
        (runProg B dir clock (IndexBase.add x) s 0).2
            = [Op.load, Op.time,
               Op.save (index ++ [CacheEntry.mk x (clock 0)])]
        ∧ ∀ s2 : σ,
            B.save dir (index ++ [CacheEntry.mk x (clock 0)]) s
                = Except.ok s2 →
              (runProg B dir clock (IndexBase.add x) s 0).1
                  = Except.ok ((), s2))
    ∧ (∀ (now : Timestamp) (s : List CacheEntry) (x : String),
        IndexBase.addState now s x = s ++ [CacheEntry.mk x now])
    ∧ (∀ t1 t2 : Timestamp,
        IndexBase.addState t2 (IndexBase.addState t1 [] "a") "a"
          = [CacheEntry.mk "a" t1, CacheEntry.mk "a" t2]) := by
  refine ⟨?_, ?_, ?_⟩
  · intro σ ε B dir clock s index x h
    constructor
    · cases hs : B.save dir (index ++ [CacheEntry.mk x (clock 0)]) s <;>
        simp [IndexBase.add, runProg, h, hs]
    · intro s2 hs
      simp [IndexBase.add, runProg, h, hs]
  · intro now s x
    simp [IndexBase.addState, IndexBase.add, runProg, listBackend, constClock]
  · intro t1 t2
    simp [IndexBase.addState, IndexBase.add, runProg, listBackend, constClock]

/-- Closed witness for `spec_add_appends_and_saves`: running `add "a"` on
the list backend from the empty index attempts exactly load, clock read,
then a save of the one-entry index. -/
theorem spec_add_appends_and_saves_witness :
    (runProg listBackend none (constClock zeroTime)
        (IndexBase.add "a") [] 0).2
      = [Op.load, Op.time, Op.save [CacheEntry.mk "a" zeroTime]] := by
  have h := (spec_add_appends_and_saves.1 (List CacheEntry) Empty
      listBackend none (constClock zeroTime) [] [] "a" rfl).1
  simpa using h

/-- C2: `has x` returns true iff some entry in the sequence returned by
`load()` has an identifier equal to `x`, and `has` never calls `save`
(its trace is always exactly one load). -/
theorem spec_has_membership_and_no_save :
    (∀ (σ ε : Type) (B : Backend σ ε) (dir : Option String)
        (clock : Nat → Timestamp) (s : σ) (x : String),
      (runProg B dir clock (IndexBase.has x) s 0).2 = [Op.load])
    ∧ (∀ (σ ε : Type) (B : Backend σ ε) (dir : Option String)
        (clock : Nat → Timestamp) (s : σ) (x : String)
        (index : List CacheEntry),
      B.load dir s = Except.ok index →
        (runProg B dir clock (IndexBase.has x) s 0).1
            = Except.ok (index.any fun e => e.identifier == x, s)
        ∧ ((index.any fun e => e.identifier == x) = true
            ↔ ∃ e ∈ index, e.identifier = x)) := by
  constructor
  · intro σ ε B dir clock s x
    cases h : B.load dir s <;> simp [IndexBase.has, runProg, h]
  · intro σ ε B dir clock s x index h
    constructor
    · simp [IndexBase.has, runProg, h]
    · simp [List.any_eq_true]

/-- Closed witness for `spec_has_membership_and_no_save`: on the list
backend holding one entry for `"a"`, `has "a"` performs one load, returns
true, and membership holds. -/
theorem spec_has_membership_and_no_save_witness :
    (runProg listBackend none (constClock zeroTime)
        (IndexBase.has "a") [CacheEntry.mk "a" zeroTime] 0).2 = [Op.load]
    ∧ (runProg listBackend none (constClock zeroTime)
        (IndexBase.has "a") [CacheEntry.mk "a" zeroTime] 0).1
      = Except.ok (true, [CacheEntry.mk "a" zeroTime]) := by
  have h1 := spec_has_membership_and_no_save.1 (List CacheEntry) Empty
    listBackend none (constClock zeroTime) [CacheEntry.mk "a" zeroTime] "a"
  have h2 := (spec_has_membership_and_no_save.2 (List CacheEntry) Empty
    listBackend none (constClock zeroTime) [CacheEntry.mk "a" zeroTime] "a"
    [CacheEntry.mk "a" zeroTime] rfl).1
  exact ⟨h1, by simpa using h2⟩

/-- C3: `known()` returns exactly the set of distinct identifiers
occurring among the entries returned by `load()` (duplicates collapsed),
and never calls `save` (its trace is always exactly one load). -/
theorem spec_known_distinct_identifiers :
    (∀ (σ ε : Type) (B : Backend σ ε) (dir : Option String)
        (clock : Nat → Timestamp) (s : σ),
      (runProg B dir clock IndexBase.known s 0).2 = [Op.load])
    ∧ (∀ (σ ε : Type) (B : Backend σ ε) (dir : Option String)
        (clock : Nat → Timestamp) (s : σ) (index : List CacheEntry),
      B.load dir s = Except.ok index →
        (runProg B dir clock IndexBase.known s 0).1
            = Except.ok ((index.map CacheEntry.identifier).toFinset, s)
        ∧ ∀ i : String,
            i ∈ (index.map CacheEntry.identifier).toFinset
              ↔ ∃ e ∈ index, e.identifier = i) := by
  constructor
  · intro σ ε B dir clock s
    cases h : B.load dir s <;> simp [IndexBase.known, runProg, h]
  · intro σ ε B dir clock s index h
    constructor
    · simp [IndexBase.known, runProg, h]
    · intro i
      simp [List.mem_toFinset, List.mem_map]

/-- Closed witness for `spec_known_distinct_identifiers`: on the list
backend holding entries for `"a"`, `"b"`, `"a"`, `known` performs one load
and returns the two-element set. -/
theorem spec_known_distinct_identifiers_witness :
    (runProg listBackend none (constClock zeroTime) IndexBase.known
        [CacheEntry.mk "a" zeroTime, CacheEntry.mk "b" zeroTime,
         CacheEntry.mk "a" zeroTime] 0).2 = [Op.load]
    ∧ (runProg listBackend none (constClock zeroTime) IndexBase.known
        [CacheEntry.mk "a" zeroTime, CacheEntry.mk "b" zeroTime,
         CacheEntry.mk "a" zeroTime] 0).1
      = Except.ok ((["a", "b", "a"] : List String).toFinset,
          [CacheEntry.mk "a" zeroTime, CacheEntry.mk "b" zeroTime,
           CacheEntry.mk "a" zeroTime]) := by
  have h1 := spec_known_distinct_identifiers.1 (List CacheEntry) Empty
    listBackend none (constClock zeroTime)
    [CacheEntry.mk "a" zeroTime, CacheEntry.mk "b" zeroTime,
     CacheEntry.mk "a" zeroTime]
  have h2 := (spec_known_distinct_identifiers.2 (List CacheEntry) Empty
    listBackend none (constClock zeroTime)
    [CacheEntry.mk "a" zeroTime, CacheEntry.mk "b" zeroTime,
     CacheEntry.mk "a" zeroTime]
    [CacheEntry.mk "a" zeroTime, CacheEntry.mk "b" zeroTime,
     CacheEntry.mk "a" zeroTime] rfl).1
  exact ⟨h1, by simpa using h2⟩

/-- Helper: `add` on the list backend appends exactly the new entry. -/
theorem addState_eq (now : Timestamp) (s : List CacheEntry) (x : String) :
    IndexBase.addState now s x = s ++ [CacheEntry.mk x now] := by
  simp [IndexBase.addState, IndexBase.add, runProg, listBackend, constClock]

/-- Helper: `has` on the list backend is `List.any` over identifiers. -/
theorem hasBool_eq (s : List CacheEntry) (x : String) :
    IndexBase.hasBool s x = s.any fun e => e.identifier == x := by
  simp [IndexBase.hasBool, IndexBase.has, runProg, listBackend]

/-- Helper: `known` on the list backend is the finset of identifiers. -/
theorem knownSet_eq (s : List CacheEntry) :
    IndexBase.knownSet s = (s.map CacheEntry.identifier).toFinset := by
  simp [IndexBase.knownSet, IndexBase.known, runProg, listBackend]

/-- Helper: identifiers after a sequence of `add` calls are the starting
identifiers followed by the identifiers passed to `add`, in order. -/
theorem addAll_map_identifier (cs : List (String × Timestamp))
    (s : List CacheEntry) :
    (IndexBase.addAll s cs).map CacheEntry.identifier
      = s.map CacheEntry.identifier ++ cs.map Prod.fst := by
  induction cs generalizing s with
  | nil => simp [IndexBase.addAll]
  | cons c cs ih =>
    simp [IndexBase.addAll, ih, addState_eq]

/-- C4: for every identifier `x` with no entry in the index, `has x`
returns false before `add x` is called and true immediately after
`add x` completes (on the list backend). -/
theorem spec_has_false_before_true_after (t : Timestamp)
    (s : List CacheEntry) (x : String) (h : ∀ e ∈ s, e.identifier ≠ x) :
    IndexBase.hasBool s x = false
    ∧ IndexBase.hasBool (IndexBase.addState t s x) x = true := by
  constructor
  · rw [hasBool_eq]
    simp only [List.any_eq_false]
    intro e he
    simp [h e he]
  · rw [addState_eq, hasBool_eq]
    simp

/-- Closed witness for `spec_has_false_before_true_after` at the
one-entry index holding `"b"` and the fresh identifier `"a"`. -/
theorem spec_has_false_before_true_after_witness :
    IndexBase.hasBool [CacheEntry.mk "b" zeroTime] "a" = false
    ∧ IndexBase.hasBool
        (IndexBase.addState zeroTime [CacheEntry.mk "b" zeroTime] "a") "a"
      = true :=
  spec_has_false_before_true_after zeroTime [CacheEntry.mk "b" zeroTime] "a"
    (by decide)

/-- C5: for every finite sequence of `add` calls applied to an initially
empty index, `known()` afterwards equals the set of distinct identifiers
passed to `add`, independent of the order of the calls and of any
duplicated identifiers among them (on the list backend; each call is an
identifier paired with the clock value read during that call). -/
theorem spec_known_after_adds (cs : List (String × Timestamp)) :
    IndexBase.knownSet (IndexBase.addAll [] cs) = (cs.map Prod.fst).toFinset
    ∧ ∀ cs2 : List (String × Timestamp), cs.Perm cs2 →
        IndexBase.knownSet (IndexBase.addAll [] cs)
          = IndexBase.knownSet (IndexBase.addAll [] cs2) := by
  have key : ∀ ds : List (String × Timestamp),
      IndexBase.knownSet (IndexBase.addAll [] ds)
        = (ds.map Prod.fst).toFinset := by
    intro ds
    rw [knownSet_eq, addAll_map_identifier]
    simp
  refine ⟨key cs, ?_⟩
  intro cs2 hperm
  rw [key cs, key cs2]
  ext a
  simp only [List.mem_toFinset]
  exact (hperm.map Prod.fst).mem_iff

/-- Closed witness for `spec_known_after_adds`: adding `"a"`, `"b"`,
`"a"` yields the set of the identifiers passed, and a reordering of the
calls yields the same set. -/
theorem spec_known_after_adds_witness :
    IndexBase.knownSet (IndexBase.addAll []
        [("a", zeroTime), ("b", zeroTime), ("a", zeroTime)])
      = (["a", "b", "a"] : List String).toFinset
    ∧ IndexBase.knownSet (IndexBase.addAll []
        [("a", zeroTime), ("b", zeroTime), ("a", zeroTime)])
      = IndexBase.knownSet (IndexBase.addAll []
        [("b", zeroTime), ("a", zeroTime), ("a", zeroTime)]) := by
  have h := spec_known_after_adds
    [("a", zeroTime), ("b", zeroTime), ("a", zeroTime)]
  exact ⟨h.1, h.2 [("b", zeroTime), ("a", zeroTime), ("a", zeroTime)]
    (by decide)⟩

/-- C6: for every location descriptor `d`, after `set_index_dir d` a call
to `get_index_dir` returns `d`, and every call to `set_index_dir` invokes
`_initialize_index` (its trace is exactly one `_initialize_index` call),
so it is safe to call repeatedly. -/
theorem spec_set_index_dir_sets_and_inits :
    ∀ (σ ε : Type) (B : Backend σ ε) (st : RegistryState σ)
      (d : Option String),
      IndexBase.get_index_dir (IndexBase.set_index_dir B st d).1 = d
      ∧ (IndexBase.set_index_dir B st d).2.2 = [Op.init_index d] := by
  intro σ ε B st d
  cases h : B.init_index d st.storage <;>
    simp [IndexBase.set_index_dir, IndexBase.get_index_dir, h]

/-- C7: every error raised by `load`, `save` or `_initialize_index`
propagates unchanged to the caller of `has`, `known`, `add` or
`set_index_dir`; no storage-layer error is caught, translated or retried,
and the failing operation attempts nothing after the failing call. -/
theorem spec_storage_errors_propagate :
    (∀ (σ ε : Type) (B : Backend σ ε) (dir : Option String)
        (clock : Nat → Timestamp) (s : σ) (e : ε) (x : String),
      B.load dir s = Except.error e →
        runProg B dir clock (IndexBase.has x) s 0
          = (Except.error e, [Op.load]))
    ∧ (∀ (σ ε : Type) (B : Backend σ ε) (dir : Option String)
        (clock : Nat → Timestamp) (s : σ) (e : ε),
      B.load dir s = Except.error e →
        runProg B dir clock IndexBase.known s 0
          = (Except.error e, [Op.load]))
    ∧ (∀ (σ ε : Type) (B : Backend σ ε) (dir : Option String)
        (clock : Nat → Timestamp) (s : σ) (e : ε) (x : String),
      B.load dir s = Except.error e →
        runProg B dir clock (IndexBase.add x) s 0
          = (Except.error e, [Op.load]))
    ∧ (∀ (σ ε : Type) (B : Backend σ ε) (dir : Option String)
        (clock : Nat → Timestamp) (s : σ) (index : List CacheEntry)
        (e : ε) (x : String),
      B.load dir s = Except.ok index →
        B.save dir (index ++ [CacheEntry.mk x (clock 0)]) s
            = Except.error e →
          runProg B dir clock (IndexBase.add x) s 0
            = (Except.error e,
               [Op.load, Op.time,
                Op.save (index ++ [CacheEntry.mk x (clock 0)])]))
    ∧ (∀ (σ ε : Type) (B : Backend σ ε) (st : RegistryState σ)
        (d : Option String) (e : ε),
      B.init_index d st.storage = Except.error e →
        (IndexBase.set_index_dir B st d).2
          = (Except.error e, [Op.init_index d])) := by
  refine ⟨?_, ?_, ?_, ?_, ?_⟩
  · intro σ ε B dir clock s e x h
    simp [IndexBase.has, runProg, h]
  · intro σ ε B dir clock s e h
    simp [IndexBase.known, runProg, h]
  · intro σ ε B dir clock s e x h
    simp [IndexBase.add, runProg, h]
  · intro σ ε B dir clock s index e x h hs
    simp [IndexBase.add, runProg, h, hs]
  · intro σ ε B st d e h
    simp [IndexBase.set_index_dir, h]

/-- Closed witness for `spec_storage_errors_propagate`: a failing `load`
surfaces out of `has` unchanged, a failing `save` surfaces out of `add`
unchanged with nothing attempted afterwards, and a failing
`_initialize_index` surfaces out of `set_index_dir` unchanged. -/
theorem spec_storage_errors_propagate_witness :
    runProg failLoadBackend none (constClock zeroTime)
        (IndexBase.has "a") () 0
      = (Except.error "load-error", [Op.load])
    ∧ runProg failSaveBackend none (constClock zeroTime)
        (IndexBase.add "a") [] 0
      = (Except.error "save-error",
         [Op.load, Op.time, Op.save [CacheEntry.mk "a" zeroTime]])
    ∧ (IndexBase.set_index_dir failInitBackend (RegistryState.mk none ())
        (some "d")).2
      = (Except.error "init-error", [Op.init_index (some "d")]) := by
  refine ⟨?_, ?_, ?_⟩
  · exact spec_storage_errors_propagate.1 Unit String failLoadBackend none
      (constClock zeroTime) () "load-error" "a" rfl
  · have h := spec_storage_errors_propagate.2.2.2.1 (List CacheEntry) String
      failSaveBackend none (constClock zeroTime) [] [] "save-error" "a"
      rfl rfl
    simpa using h
  · exact spec_storage_errors_propagate.2.2.2.2 Unit String failInitBackend
      (RegistryState.mk none ()) (some "d") "init-error" rfl

/-- C8: `has` and `known` are read-only: each performs exactly one `load`
(so neither calls `save` nor `_initialize_index`), and on success the
registry object is unchanged (`index_dir` and storage state identical),
so the persisted index is the same before and after the call. -/
theorem spec_has_known_read_only :
    (∀ (σ ε : Type) (B : Backend σ ε) (clock : Nat → Timestamp)
        (st : RegistryState σ) (x : String),
      (IndexBase.runMethod B clock st (IndexBase.has x)).2 = [Op.load]
      ∧ ∀ (b : Bool) (st2 : RegistryState σ),
          (IndexBase.runMethod B clock st (IndexBase.has x)).1
              = Except.ok (b, st2) →
            st2 = st)
    ∧ (∀ (σ ε : Type) (B : Backend σ ε) (clock : Nat → Timestamp)
        (st : RegistryState σ),
      (IndexBase.runMethod B clock st IndexBase.known).2 = [Op.load]
      ∧ ∀ (k : Finset String) (st2 : RegistryState σ),
          (IndexBase.runMethod B clock st IndexBase.known).1
              = Except.ok (k, st2) →
            st2 = st) := by
  constructor
  · intro σ ε B clock st x
    obtain ⟨dir, stor⟩ := st
    cases h : B.load dir stor <;>
      simp [IndexBase.runMethod, IndexBase.has, runProg, h]
  · intro σ ε B clock st
    obtain ⟨dir, stor⟩ := st
    cases h : B.load dir stor <;>
      simp [IndexBase.runMethod, IndexBase.known, runProg, h]

/-- Closed witness for `spec_has_known_read_only`: on the list backend in
a concrete registry state, `has "a"` performs one load and the state it
returns is the input state. -/
theorem spec_has_known_read_only_witness :
    (IndexBase.runMethod listBackend (constClock zeroTime)
        (RegistryState.mk (some "d") [CacheEntry.mk "a" zeroTime])
        (IndexBase.has "a")).2 = [Op.load]
    ∧ RegistryState.mk (some "d") [CacheEntry.mk "a" zeroTime]
        = RegistryState.mk (some "d") [CacheEntry.mk "a" zeroTime] := by
  have h := spec_has_known_read_only.1 (List CacheEntry) Empty listBackend
    (constClock zeroTime)
    (RegistryState.mk (some "d") [CacheEntry.mk "a" zeroTime]) "a"
  exact ⟨h.1, h.2 true
    (RegistryState.mk (some "d") [CacheEntry.mk "a" zeroTime]) rfl⟩

/-- C9 counterexample: the claim says the timestamp stored by `add`
carries no more than second precision, but `add` stores `current_time()`
(Python `datetime.now()`) verbatim: when the clock reads
`2026-01-02 03:04:05.123456`, the stored entry keeps the microsecond part
`123456 ≠ 0`. -/
theorem spec_timestamp_second_granularity_counterexample :
    IndexBase.addState sampleTime [] "id"
      = [CacheEntry.mk "id" sampleTime]
    ∧ sampleTime.microsecond = 123456
    ∧ ¬ (∀ e ∈ IndexBase.addState sampleTime [] "id",
          e.timestamp.microsecond = 0) := by
  decide

/-- C9 (amended): `TIME_FORMAT` is the fixed pattern
`%Y-%m-%d:%H:%M:%S`, whose rendering is `YYYY-MM-DD:HH:MM:SS` with no
timezone and no sub-second part (serialization under it discards the
microsecond field); but the entry stored by `add` keeps `current_time()`
verbatim, at full (microsecond) `datetime` precision — truncation to
second granularity happens only if a backend serializes with
`TIME_FORMAT`. -/
theorem spec_timestamp_format_second_granularity :
    IndexBase.TIME_FORMAT = "%Y-%m-%d:%H:%M:%S"
    ∧ (∀ (t : Timestamp) (s : List CacheEntry) (x : String),
        IndexBase.addState t s x = s ++ [CacheEntry.mk x t])
    ∧ (∀ t : Timestamp,
        strftimeTimeFormat t
          = strftimeTimeFormat
              (Timestamp.mk t.year t.month t.day t.hour t.minute t.second 0))
    ∧ strftimeTimeFormat sampleTime = "2026-01-02:03:04:05" := by
  refine ⟨rfl, addState_eq, fun t => rfl, by decide⟩

/-- C10: constructing the registry always invokes `set_index_dir` with
the constructor argument, hence `_initialize_index` runs during
construction; with the default argument, `_initialize_index` runs with
`index_dir` set to `None`. -/
theorem spec_ctor_always_inits :
    ∀ (σ ε : Type) (B : Backend σ ε) (s : σ) (d : Option String),
      IndexBase.mkRegistry B s d
          = IndexBase.set_index_dir B (RegistryState.mk none s) d
      ∧ (IndexBase.mkRegistry B s d).2.2 = [Op.init_index d]
      ∧ IndexBase.mkRegistryDefault B s = IndexBase.mkRegistry B s none
      ∧ (IndexBase.mkRegistryDefault B s).2.2 = [Op.init_index none] := by
  intro σ ε B s d
  refine ⟨rfl, ?_, rfl, ?_⟩
  · cases h : B.init_index d s <;>
      simp [IndexBase.mkRegistry, IndexBase.set_index_dir, h]
  · cases h : B.init_index none s <;>
      simp [IndexBase.mkRegistryDefault, IndexBase.mkRegistry,
        IndexBase.set_index_dir, h]
